import Mathlib

set_option maxRecDepth 100000

/-!
Verification development for the Oria WA150KM temperature sensor decoder
(src/devices/oria_wa150km.c).

The decoder is embedded shallowly:

* A bit buffer is a list of rows; each row is a list of byte values together
  with a bit length, mirroring bitbuffer_t (bb rows plus bits_per_row).
* Machine bytes are Nat values; every operation the C code performs on them
  (shift, mask, xor) is modelled by the corresponding Nat bitwise operation.
* The C float temperature is carried in exact tenths of a degree (an Int of
  deci-degrees); every temperature the protocol can encode is an exact
  decimal with one fractional digit, so the field extraction loses nothing,
  and the range comparison against -40.0/60.0 agrees with the float one on
  every BCD-derived value.  The debounce delta comparison against 12.0f is
  not exact in deci-degrees: it is modelled bit-faithfully by scaled-integer
  binary32/binary64 round-to-nearest-even arithmetic (the IEEE section
  below), because the float32 rounding errors of the two temperatures need
  not cancel at pairs whose exact delta equals the 12.0 bound.
* The library primitives bitbuffer_invert, bitbuffer_manchester_decode and
  reflect_bytes are not part of this file's source; they are modelled from
  the spec's interface contracts (their doc comments say so).
* decoder_logf is a pure diagnostic sink; the distinct diagnostic situations
  are reflected in the DecodeOutcome / Reject constructors and their
  payloads, so that the observable result of a decode call is the pair of
  the numeric return code (retCode) and the diagnostic outcome.
-/

namespace OriaWA150KM

/-- ORIA_WA150KM_BITLEN from the C source: expected encoded row length. -/
def ORIA_WA150KM_BITLEN : Nat := 227

/-- WARMUP_LEN from the C source: number of warmup bytes checked. -/
def WARMUP_LEN : Nat := 3

/-- MAX_DEVICES from the C source: capacity of the device tracking table. -/
def MAX_DEVICES : Nat := 32

/-! IEEE arithmetic for the debounce comparison.  The C code compares
fabsf(temperature - last_temp) > 12.0f on float (binary32) values obtained
by narrowing the double (binary64) expression (tens*10 + ones) +
decimal * 0.1.  Exact deci-degrees are not enough to mirror this
comparison: at some pairs whose exact delta is 12.0 (for example stored
20.4, candidate 32.4) the rounding errors of the two float32 temperatures
do not cancel and the computed delta exceeds 12.0f, so the C rejects a
reading whose exact delta equals the bound.  The model below represents
every value as an integer multiple of 2^-60 (all binary32 and binary64
values occurring in the decoder lie on that grid; an integer x stands for
the value x / 2^60) and implements round-to-nearest, ties-to-even at a
given significand width.  It is exact for the decoder's whole value range
(magnitudes between 2^-60 and 2^60). -/

/-- The fixed-point scale of the rounding model: the integer x represents
the value x / 2^60, so FSCALE represents 1. -/
def FSCALE : Int := 2 ^ 60

/-- Fueled downward search for the largest exponent at most the starting
one whose power of two is at most x. -/
def expSearch (x : Int) : Nat → Nat → Nat
  | 0, e => e
  | fuel + 1, e => if (2 : Int) ^ e ≤ x then e else expSearch x fuel (e - 1)

/-- Floor of the base-2 logarithm of a positive scaled value: the largest
e ≤ 120 with 2^e ≤ x.  Correct for 1 ≤ x < 2^121, which covers every value
the decoder's arithmetic can produce. -/
def scaledExp (x : Int) : Nat := expSearch x 121 120

/-- Round x to the nearest integer multiple of U (U positive), ties to the
even multiple. -/
def roundToMultiple (x U : Int) : Int :=
  let q := x.ediv U
  let r := x.emod U
  if 2 * r < U then q * U
  else if U < 2 * r then (q + 1) * U
  else if q.emod 2 = 0 then q * U else (q + 1) * U

/-- Round a positive scaled value to a p-bit significand: the unit in the
last place of the binade [2^e, 2^(e+1)) is 2^(e+1-p), scaled.  When the
binade already fits in p bits the truncated subtraction yields unit 2^0
and the value is unchanged. -/
def roundSigPos (p : Nat) (x : Int) : Int :=
  roundToMultiple x (2 ^ (scaledExp x + 1 - p))

/-- Round a scaled value to a p-bit significand; IEEE round-to-nearest-even
is symmetric, so negative values round by magnitude.  p = 24 is float
(binary32), p = 53 is double (binary64). -/
def roundSig (p : Nat) (x : Int) : Int :=
  if x < 0 then -roundSigPos p (-x) else if x = 0 then 0 else roundSigPos p x

/-- The binary64 value of the C literal 0.1, scaled:
7205759403792794 * 2^-56.  It is a multiple of the ulp 2^-56 of the binade
[2^-4, 2^-3) and lies within half an ulp of 1/10: the lemma
double_0_1_nearest pins 10 * double_0_1 - 2^60 = 64, and 64 < 80 =
10 * 2^4 / 2 is less than half the scaled ulp times ten. -/
def double_0_1 : Int := 7205759403792794 * 2 ^ 4

/-- The float32 temperature the C code computes from the BCD digits
(C line 137): the double expression (tens*10 + ones) + decimal * 0.1,
narrowed to float.  Each arithmetic step rounds to the evaluation
precision: the int-to-double conversions are exact, the double multiply
and add round to 53 bits, and the assignment to float rounds to 24
bits. -/
def float32Temperature (tens ones dec : Nat) : Int :=
  roundSig 24 (roundSig 53 (((tens : Int) * 10 + (ones : Int)) * FSCALE +
    roundSig 53 ((dec : Int) * double_0_1)))

/-- The float32 value stored for a deci-degree reading.  Every reading the
gate emits carries BCD digits at most 9, so the digits -- and with them
the float32 value the C code computed and stored -- are recovered from
the deci value.  The C negates the float after the conversion, which is
an exact operation.  (A negative zero, stored when the sign bit
accompanies a zero reading, is indistinguishable from +0.0 in the only
use the decoder makes of the stored value, a subtraction.) -/
def float32OfDeci (t : Int) : Int :=
  if t < 0 then
    -float32Temperature (t.natAbs / 100) (t.natAbs / 10 % 10) (t.natAbs % 10)
  else
    float32Temperature (t.natAbs / 100) (t.natAbs / 10 % 10) (t.natAbs % 10)

/-- MAX_TEMP_DELTA from the C source (12.0f), scaled; 12.0 is exact in
binary32. -/
def MAX_TEMP_DELTA_SCALED : Int := 12 * FSCALE

/-- The C delta test (lines 190-194): fabsf(temperature - last_temp) >
MAX_TEMP_DELTA, where the subtraction of the two stored float32 values is
a float32 operation (round-to-nearest of the exact difference) and fabsf
is exact. -/
def deltaExceeded (cand stored : Int) : Prop :=
  MAX_TEMP_DELTA_SCALED <
    |roundSig 24 (float32OfDeci cand - float32OfDeci stored)|

instance (cand stored : Int) : Decidable (deltaExceeded cand stored) := by
  unfold deltaExceeded; infer_instance

/-- One row of a bitbuffer_t: its byte storage and its bit count. -/
structure BitRow where
  bytes : List Nat
  bits  : Nat
deriving DecidableEq, Repr

/-- A bitbuffer_t: rows in order (num_rows is the list length). -/
abbrev BitBuffer := List BitRow

/-- Read byte i of a row (C: bitbuffer->bb[r][i]). -/
def rowByte (row : BitRow) (i : Nat) : Nat := row.bytes.getD i 0

/-- Read bit i of a row, most significant bit of each byte first
(rtl_433 bit order). -/
def getBit (row : BitRow) (i : Nat) : Nat :=
  (rowByte row (i / 8) >>> (7 - i % 8)) &&& 1

/-- First index satisfying a predicate, mirroring a C scan loop that breaks
at the first hit. -/
def firstIdx {α : Type} (p : α → Bool) : List α → Option Nat
  | [] => none
  | a :: l => if p a then some 0 else (firstIdx p l).map (· + 1)

/-- The row-selection loop (C lines 67-75): first row whose bit length is
exactly ORIA_WA150KM_BITLEN. -/
def findRow (bb : BitBuffer) : Option Nat :=
  firstIdx (fun row => row.bits == ORIA_WA150KM_BITLEN) bb

/-- The warmup loop (C lines 79-84): index of the first of the three warmup
bytes that is not 0xAA, or none if all three are 0xAA. -/
def warmupFail (row : BitRow) : Option Nat :=
  (List.range WARMUP_LEN).find? (fun i => rowByte row i != 0xAA)

/-- Number of bits of byte i of a row that lie inside the row's bit count. -/
def usedBitsInByte (bits i : Nat) : Nat :=
  if 8 * (i + 1) ≤ bits then 8 else if 8 * i < bits then bits - 8 * i else 0

/-- Modelled from the spec: invert_bits / bitbuffer_invert, the in-place
bitwise complement of a row's buffer.  Each used bit is complemented; bits
beyond the row's bit count are left unchanged. -/
def invertRow (row : BitRow) : BitRow :=
  ⟨(List.range row.bytes.length).map (fun i =>
      (row.bytes.getD i 0 ^^^ 0xFF) ^^^ (0xFF >>> usedBitsInByte row.bits i)),
   row.bits⟩

/-- Modelled from the spec: bitbuffer_invert applied to the whole buffer, as
the C call site passes the entire bitbuffer_t (every row is complemented). -/
def bitbuffer_invert (bb : BitBuffer) : BitBuffer := bb.map invertRow

/-- Modelled from the spec: bitbuffer_manchester_decode on one row starting
at a given bit offset.  Bits are consumed in pairs; an equal pair (no
transition) stops the decode, otherwise the second bit of the pair is the
decoded payload bit (G.E. Thomas convention after the buffer inversion,
which maps the 0xAA warmup bytes to an all-ones decoded preamble exactly as
documented in the C data-layout comment). -/
def manchesterDecodeBits (row : BitRow) (start maxBits : Nat) : List Nat :=
  ((List.range maxBits).takeWhile (fun k =>
      decide (start + 2 * k + 1 < row.bits) &&
      (getBit row (start + 2 * k) != getBit row (start + 2 * k + 1)))).map
    (fun k => getBit row (start + 2 * k + 1))

/-- Pack decoded bits into byte j of the decoded buffer, most significant
bit first; missing bits read as 0 (the manchester output buffer is
zero-initialized in the C source). -/
def packByte (dbits : List Nat) (j : Nat) : Nat :=
  (List.range 8).foldl (fun acc i => 2 * acc + dbits.getD (8 * j + i) 0) 0

/-- Modelled from the spec: reflect_bytes, the per-byte bit-order reversal. -/
def reflectByte (b : Nat) : Nat :=
  (List.range 8).foldl (fun acc i => acc + ((b >>> i) &&& 1) * 2 ^ (7 - i)) 0

/-- The 14-byte decoded frame obtained from one (already inverted) row:
Manchester decode followed by per-byte reflection (C lines 96-103).
Reflection is applied to every byte of the decoded buffer; this agrees with
the C call reflect_bytes(buf, bits/8 + 1) on every byte the decoder reads,
because a byte outside the reflected prefix is still zero and reflection
fixes zero. -/
def decodedFrame (row : BitRow) : List Nat :=
  (List.range 14).map (fun j =>
    reflectByte (packByte (manchesterDecodeBits row 0 ORIA_WA150KM_BITLEN) j))

/-- A validated sensor reading (the data_make payload): device id, channel,
and the temperature in deci-degrees. -/
structure Reading where
  device_id : Nat
  channel   : Nat
  temp_deci : Int
deriving DecidableEq, Repr

/-- The distinct diagnostic situations that make the decoder return
DECODE_FAIL_SANITY, with the values the corresponding decoder_logf call
reports. -/
inductive Reject where
  | sanityTrailerMismatch (v : Nat)
  | channelOutOfRange (c : Nat)
  | invalidBcd (d t o : Nat)
  | temperatureOutOfRange (t : Int)
  | trackerFull (id ch : Nat)
  | temperatureDeltaTooLarge (last cur : Int)
deriving DecidableEq, Repr

deriving instance DecidableEq for Except

/-- Channel extraction (C line 112): upper nibble of byte 5, plus one. -/
def oriaChannel (b : List Nat) : Nat := ((b.getD 5 0 >>> 4) &&& 0x0F) + 1

/-- Temperature fractional BCD digit (C line 124): upper nibble of byte 7. -/
def oriaTempDecimalNibble (b : List Nat) : Nat := (b.getD 7 0 >>> 4) &&& 0x0F

/-- Temperature tens BCD digit (C line 125): upper nibble of byte 8. -/
def oriaTempTensNibble (b : List Nat) : Nat := (b.getD 8 0 >>> 4) &&& 0x0F

/-- Temperature ones BCD digit (C line 126): lower nibble of byte 8. -/
def oriaTempOnesNibble (b : List Nat) : Nat := b.getD 8 0 &&& 0x0F

/-- The computed temperature in deci-degrees (C lines 137-141):
(tens*10 + ones) + decimal*0.1 degrees, negated when bit 3 of byte 9 is
set. -/
def oriaTempDeci (b : List Nat) : Int :=
  if b.getD 9 0 &&& 0x08 ≠ 0 then
    -(((oriaTempTensNibble b * 10 + oriaTempOnesNibble b) * 10
        + oriaTempDecimalNibble b : Nat) : Int)
  else
    (((oriaTempTensNibble b * 10 + oriaTempOnesNibble b) * 10
        + oriaTempDecimalNibble b : Nat) : Int)

/-- The field extractor and sanity gate (C lines 111-156), applied to a
decoded frame that already passed the byte-13 sanity check: channel range
check, BCD check, temperature range check.  The suspicious-device-id check
(0x00 / 0xFF, C lines 150-156) only logs a warning and never affects the
result, so it does not appear here. -/
def oriaExtractGate (b : List Nat) : Except Reject Reading :=
  if oriaChannel b < 1 ∨ oriaChannel b > 16 then
    Except.error (Reject.channelOutOfRange (oriaChannel b))
  else if 9 < oriaTempDecimalNibble b ∨ 9 < oriaTempTensNibble b
      ∨ 9 < oriaTempOnesNibble b then
    Except.error (Reject.invalidBcd (oriaTempDecimalNibble b)
      (oriaTempTensNibble b) (oriaTempOnesNibble b))
  else if oriaTempDeci b < -400 ∨ 600 < oriaTempDeci b then
    Except.error (Reject.temperatureOutOfRange (oriaTempDeci b))
  else
    Except.ok
      { device_id := b.getD 6 0, channel := oriaChannel b
        temp_deci := oriaTempDeci b }

/-- device_state_t from the C source.  The last temperature is kept in
deci-degrees. -/
structure device_state_t where
  device_id : Nat
  channel : Nat
  last_temperature : Int
  initialized : Bool
deriving DecidableEq, Repr

/-- Does a table slot hold an initialized entry for this (device id,
channel) pair (C line 170)? -/
def slotMatches (id ch : Nat) (s : device_state_t) : Bool :=
  s.initialized && (s.device_id == id) && (s.channel == ch)

/-- The slot-selection loop (C lines 166-180).  The loop breaks at the first
matching initialized slot; while scanning it remembers the first
uninitialized slot, which is used only when no match exists at all.  Hence
the result is: the first matching slot if any, otherwise the first
uninitialized slot, otherwise none (device_index == -1). -/
def device_index (table : List device_state_t) (id ch : Nat) : Option Nat :=
  match firstIdx (slotMatches id ch) table with
  | some i => some i
  | none => firstIdx (fun s => !s.initialized) table

/-- Result of one debounce-tracker interaction, with the values the
corresponding decoder_logf call reports. -/
inductive TrackerRes where
  | accepted
  | trackerFull
  | deltaTooLarge (last cur : Int)
deriving DecidableEq, Repr

/-- The debounce tracker step (C lines 166-206): find a slot; reject with
trackerFull when none exists; reject when the slot is initialized and the
float32-computed absolute temperature delta exceeds MAX_TEMP_DELTA
(table unchanged); otherwise accept and write the reading into the
slot. -/
def trackerStep (table : List device_state_t) (r : Reading) :
    TrackerRes × List device_state_t :=
  match device_index table r.device_id r.channel with
  | none => (TrackerRes.trackerFull, table)
  | some i =>
    let d := table.getD i ⟨0, 0, 0, false⟩
    if d.initialized = true
        ∧ deltaExceeded r.temp_deci d.last_temperature then
      (TrackerRes.deltaTooLarge d.last_temperature r.temp_deci, table)
    else
      (TrackerRes.accepted,
       table.set i ⟨r.device_id, r.channel, r.temp_deci, true⟩)

/-- The decoder's process-wide mutable state: the static device_states array
and the device_states_initialized flag. -/
structure DecoderState where
  device_states : List device_state_t
  device_states_initialized : Bool
deriving DecidableEq, Repr

/-- Lazy zero-initialization of the table (C lines 158-164): on the first
call that reaches the tracker, clear every initialized flag and set the
guard. -/
def initStates (st : DecoderState) : DecoderState :=
  if st.device_states_initialized then st
  else ⟨st.device_states.map (fun d => { d with initialized := false }), true⟩

/-- The decoder's observable diagnostic outcome.  Payloads carry the values
the corresponding decoder_logf call reports. -/
inductive DecodeOutcome where
  | noRow
  | badWarmup (i v : Nat)
  | badTrailer (v : Nat)
  | fail (r : Reject)
  | accepted (r : Reading)
deriving DecidableEq, Repr

/-- Modelled from the spec: the numeric sanity-failure code DECODE_FAIL_SANITY
returned for every sanity-class rejection; a negative value, distinct from
0 (no matching row) and 1 (accepted). -/
def DECODE_FAIL_SANITY : Int := -4

/-- The C function's int return value for each outcome: 0 for the three
early returns (no row, warmup mismatch, raw trailer mismatch), 1 for an
accepted reading, DECODE_FAIL_SANITY for every sanity-class rejection. -/
def retCode : DecodeOutcome → Int
  | DecodeOutcome.noRow => 0
  | DecodeOutcome.badWarmup _ _ => 0
  | DecodeOutcome.badTrailer _ => 0
  | DecodeOutcome.fail _ => DECODE_FAIL_SANITY
  | DecodeOutcome.accepted _ => 1

/-- oria_wa150km_decode (C lines 60-219).  Returns the diagnostic outcome,
the new decoder state, and the caller's bit buffer as the call leaves it
(bitbuffer_invert mutates it in place once the raw checks pass). -/
def oria_wa150km_decode (st : DecoderState) (bitbuffer : BitBuffer) :
    DecodeOutcome × DecoderState × BitBuffer :=
  match findRow bitbuffer with
  | none => (DecodeOutcome.noRow, st, bitbuffer)
  | some r =>
    let row := bitbuffer.getD r ⟨[], 0⟩
    match warmupFail row with
    | some i => (DecodeOutcome.badWarmup i (rowByte row i), st, bitbuffer)
    | none =>
      if rowByte row (row.bits / 8 - 1) ≠ 0x69 then
        (DecodeOutcome.badTrailer (rowByte row (row.bits / 8 - 1)), st,
         bitbuffer)
      else
        let bitbuffer' := bitbuffer_invert bitbuffer
        let b := decodedFrame (bitbuffer'.getD r ⟨[], 0⟩)
        if b.getD 13 0 ≠ 0x65 then
          (DecodeOutcome.fail (Reject.sanityTrailerMismatch (b.getD 13 0)),
           st, bitbuffer')
        else
          match oriaExtractGate b with
          | Except.error rej => (DecodeOutcome.fail rej, st, bitbuffer')
          | Except.ok reading =>
            let st1 := initStates st
            match trackerStep st1.device_states reading with
            | (TrackerRes.trackerFull, _) =>
              (DecodeOutcome.fail
                 (Reject.trackerFull reading.device_id reading.channel),
               st1, bitbuffer')
            | (TrackerRes.deltaTooLarge last cur, _) =>
              (DecodeOutcome.fail
                 (Reject.temperatureDeltaTooLarge last cur),
               st1, bitbuffer')
            | (TrackerRes.accepted, table') =>
              (DecodeOutcome.accepted reading,
               ⟨table', st1.device_states_initialized⟩, bitbuffer')

/-- A sequence of decode calls threaded through the decoder state. -/
def decodeSeq (st : DecoderState) (bbs : List BitBuffer) : DecoderState :=
  bbs.foldl (fun s bb => (oria_wa150km_decode s bb).2.1) st

/-- Did the selected row pass the raw (pre-inversion) checks: a 227-bit row
exists, its warmup bytes are 0xAA, and its last full raw byte is 0x69? -/
def rawChecksPass (bb : BitBuffer) : Bool :=
  match findRow bb with
  | none => false
  | some r =>
    let row := bb.getD r ⟨[], 0⟩
    (warmupFail row).isNone && (rowByte row (row.bits / 8 - 1) == 0x69)

/-! Concrete inputs used by witnesses and counterexamples.  encodeRawRow is
test scaffolding (the spec's test-only encoder): it builds the 227-bit raw
row whose inversion Manchester-decodes and reflects back to a given 14-byte
frame.  Raw bit pair (2k, 2k+1) is (bit, not bit) for decoded bit k, so the
all-ones decoded preamble becomes the raw 0xAA warmup bytes. -/

/-- Test scaffolding: one raw line-symbol pair for one payload bit. -/
def encodePair (bit : Nat) : Nat := if bit = 1 then 2 else 1

/-- Test scaffolding: raw byte m of the encoded row, from payload bits
4m..4m+3 of the (reflected) frame. -/
def encodeRawByte (frame : List Nat) (m : Nat) : Nat :=
  (List.range 4).foldl (fun acc t =>
    4 * acc + encodePair ((frame.getD ((4 * m + t) / 8) 0 >>> ((4 * m + t) % 8)) &&& 1)) 0

/-- Test scaffolding: the full 227-bit raw row for a 14-byte frame (28 data
bytes plus one final byte holding the 3 leftover bits). -/
def encodeRawRow (frame : List Nat) : BitRow :=
  ⟨(List.range 28).map (encodeRawByte frame) ++ [0x40], 227⟩

/-- A well-formed frame: channel 1, device id 0x42, temperature 21.5 C. -/
def validFrame : List Nat :=
  [0xFF, 0xFF, 0xFF, 0xFA, 0x20, 0x00, 0x42, 0x50, 0x21, 0x00, 0x00, 0x00,
   0x00, 0x65]

/-- A buffer holding the encoding of validFrame. -/
def bbValid : BitBuffer := [encodeRawRow validFrame]

/-- The encoding of a frame whose first warmup byte is not 0xAA (frame byte
0 is 0x00, so raw byte 0 is 0x55). -/
def bbPreambleBad : BitBuffer :=
  [encodeRawRow
    [0x00, 0xFF, 0xFF, 0xFA, 0x20, 0x00, 0x42, 0x50, 0x21, 0x00, 0x00, 0x00,
     0x00, 0x65]]

/-- The encoding of a frame whose raw trailer byte is not 0x69 (frame byte
13 is 0x05, so raw byte 27 is 0x55) while the warmup bytes are intact. -/
def bbTrailerBad : BitBuffer :=
  [encodeRawRow
    [0xFF, 0xFF, 0xFF, 0xFA, 0x20, 0x00, 0x42, 0x50, 0x21, 0x00, 0x00, 0x00,
     0x00, 0x05]]

/-- The encoding of a frame whose decoded byte 13 is 0x60 instead of 0x65;
the raw trailer byte is still 0x69 (byte 13's upper nibble is unchanged),
so only the post-decode sanity check fires. -/
def bbSanityBad : BitBuffer :=
  [encodeRawRow
    [0xFF, 0xFF, 0xFF, 0xFA, 0x20, 0x00, 0x42, 0x50, 0x21, 0x00, 0x00, 0x00,
     0x00, 0x60]]

/-- A raw row that passes the warmup and raw-trailer checks but whose
(inverted) byte 3 is 0xFF, an invalid Manchester pair: the line decode
stops after 12 bits. -/
def bbManFail : BitBuffer :=
  [⟨[0xAA, 0xAA, 0xAA] ++ List.replicate 24 0x00 ++ [0x69, 0x00], 227⟩]

/-- The decoder's initial process state: the static array is zeroed and the
lazy-initialization guard is unset. -/
def st0 : DecoderState :=
  ⟨List.replicate MAX_DEVICES ⟨0, 0, 0, false⟩, false⟩

/-- A completely full tracker table: 32 initialized entries for the
distinct pairs (i, 1), all storing temperature 0. -/
def fullTable : List device_state_t :=
  (List.range 32).map (fun i => ⟨i, 1, 0, true⟩)

/-- Two tracker entries are compatible when they are not both initialized
for the same (device id, channel) pair. -/
def entriesCompatible (a b : device_state_t) : Prop :=
  a.initialized = true → b.initialized = true →
    ¬(a.device_id = b.device_id ∧ a.channel = b.channel)

instance : DecidableRel entriesCompatible := fun a b => by
  unfold entriesCompatible; infer_instance

/-- The tracker invariant: at most one initialized entry per (device id,
channel) pair. -/
def trackerInvariant (table : List device_state_t) : Prop :=
  table.Pairwise entriesCompatible

instance (table : List device_state_t) : Decidable (trackerInvariant table) := by
  unfold trackerInvariant; infer_instance

/-! Helper lemmas. -/

lemma firstIdx_eq_none_iff {α : Type} (p : α → Bool) (l : List α) :
    firstIdx p l = none ↔ ∀ a ∈ l, p a = false := by
  induction l with
  | nil => simp [firstIdx]
  | cons a l ih =>
    by_cases h : p a
    · simp [firstIdx, h]
    · simp only [firstIdx, if_neg h, Option.map_eq_none', ih, List.mem_cons]
      constructor
      · intro hl x hx
        rcases hx with rfl | hx
        · simpa using h
        · exact hl x hx
      · intro hl x hx
        exact hl x (Or.inr hx)

lemma firstIdx_some_spec {α : Type} (p : α → Bool) (l : List α) (i : Nat)
    (h : firstIdx p l = some i) :
    ∃ a, l[i]? = some a ∧ p a = true ∧
      ∀ j b, j < i → l[j]? = some b → p b = false := by
  induction l generalizing i with
  | nil => simp [firstIdx] at h
  | cons x l ih =>
    by_cases hx : p x
    · simp only [firstIdx, if_pos hx, Option.some.injEq] at h
      subst h
      exact ⟨x, by simp, hx, fun j b hj => by omega⟩
    · simp only [firstIdx, if_neg hx, Option.map_eq_some'] at h
      obtain ⟨i', hi', rfl⟩ := h
      obtain ⟨a, ha, hpa, hmin⟩ := ih i' hi'
      refine ⟨a, by simpa using ha, hpa, ?_⟩
      intro j b hj hb
      cases j with
      | zero =>
        simp only [List.getElem?_cons_zero, Option.some.injEq] at hb
        subst hb
        simpa using hx
      | succ j' =>
        exact hmin j' b (by omega) (by simpa using hb)

lemma firstIdx_eq_some_of {α : Type} (p : α → Bool) (l : List α) (i : Nat)
    (a : α) (ha : l[i]? = some a) (hp : p a = true)
    (hmin : ∀ j b, j < i → l[j]? = some b → p b = false) :
    firstIdx p l = some i := by
  induction l generalizing i with
  | nil => simp at ha
  | cons x l ih =>
    cases i with
    | zero =>
      simp only [List.getElem?_cons_zero, Option.some.injEq] at ha
      subst ha
      simp [firstIdx, hp]
    | succ i' =>
      have hx : p x = false := hmin 0 x (by omega) (by simp)
      have hcond : ¬(p x = true) := by rw [hx]; exact Bool.false_ne_true
      simp only [firstIdx, if_neg hcond, Option.map_eq_some']
      refine ⟨i', ?_, rfl⟩
      exact ih i' (by simpa using ha)
        (fun j b hj hb => hmin (j + 1) b (by omega) (by simpa using hb))

lemma firstIdx_lt_length {α : Type} (p : α → Bool) (l : List α) (i : Nat)
    (h : firstIdx p l = some i) : i < l.length := by
  obtain ⟨a, ha, -⟩ := firstIdx_some_spec p l i h
  exact (List.getElem?_eq_some_iff.mp ha).1

lemma getD_lt_256 (b : List Nat) (h : ∀ x ∈ b, x < 256) (i : Nat) :
    b.getD i 0 < 256 := by
  rw [List.getD_eq_getElem?_getD]
  cases hb : b[i]? with
  | none => simp
  | some a =>
    obtain ⟨hlt, rfl⟩ := List.getElem?_eq_some_iff.mp hb
    simpa using h _ (List.getElem_mem hlt)

lemma and15_of_lt (n : Nat) (h : n < 16) : n &&& 15 = n := by
  apply Nat.eq_of_testBit_eq
  intro i
  rw [Nat.testBit_and]
  rcases lt_or_ge i 4 with hi | hi
  · rw [show (15 : Nat) = 2 ^ 4 - 1 from rfl, Nat.testBit_two_pow_sub_one]
    simp [hi]
  · have h16 : (16 : Nat) ≤ 2 ^ i := by
      calc (16 : Nat) = 2 ^ 4 := by norm_num
        _ ≤ 2 ^ i := Nat.pow_le_pow_right (by norm_num) hi
    have h1 : n.testBit i = false :=
      Nat.testBit_lt_two_pow (lt_of_lt_of_le h h16)
    simp [h1]

lemma shift4_and15 (x : Nat) (h : x < 256) : (x >>> 4) &&& 15 = x >>> 4 := by
  apply and15_of_lt
  rw [Nat.shiftRight_eq_div_pow]
  omega

lemma getD_map_range {β : Type} (f : Nat → β) (n i : Nat) (hi : i < n) (d : β) :
    ((List.range n).map f).getD i d = f i := by
  rw [List.getD_eq_getElem?_getD, List.getElem?_map, List.getElem?_range hi]
  rfl

lemma getD_map_of_lt {α β : Type} (l : List α) (f : α → β) (i : Nat)
    (h : i < l.length) (d : β) (d' : α) :
    (l.map f).getD i d = f (l.getD i d') := by
  rw [List.getD_eq_getElem?_getD, List.getD_eq_getElem?_getD, List.getElem?_map,
      List.getElem?_eq_getElem h]
  rfl

lemma slotMatches_iff (id ch : Nat) (s : device_state_t) :
    slotMatches id ch s = true ↔
      s.initialized = true ∧ s.device_id = id ∧ s.channel = ch := by
  simp [slotMatches, Bool.and_eq_true, and_assoc]

lemma device_index_eq_none_iff (table : List device_state_t) (id ch : Nat) :
    device_index table id ch = none ↔
      (∀ s ∈ table, slotMatches id ch s = false) ∧
      (∀ s ∈ table, s.initialized = true) := by
  unfold device_index
  cases hm : firstIdx (slotMatches id ch) table with
  | some i =>
    simp only []
    constructor
    · intro h; cases h
    · rintro ⟨hnm, -⟩
      obtain ⟨a, ha, hpa, -⟩ := firstIdx_some_spec _ _ _ hm
      obtain ⟨hlt, rfl⟩ := List.getElem?_eq_some_iff.mp ha
      rw [hnm _ (List.getElem_mem hlt)] at hpa
      cases hpa
  | none =>
    have hm' := (firstIdx_eq_none_iff _ _).mp hm
    rw [firstIdx_eq_none_iff]
    constructor
    · intro h
      refine ⟨hm', fun s hs => ?_⟩
      have hsf := h s hs
      simpa using hsf
    · rintro ⟨-, h⟩ s hs
      simp [h s hs]

lemma device_index_matched (table : List device_state_t) (id ch : Nat)
    (i : Nat) (a : device_state_t) (ha : table[i]? = some a)
    (hm : slotMatches id ch a = true)
    (hmin : ∀ j b, j < i → table[j]? = some b → slotMatches id ch b = false) :
    device_index table id ch = some i := by
  unfold device_index
  rw [firstIdx_eq_some_of (slotMatches id ch) table i a ha hm hmin]

lemma trackerStep_matched (table : List device_state_t) (r : Reading)
    (i : Nat) (a : device_state_t) (ha : table[i]? = some a)
    (hm : slotMatches r.device_id r.channel a = true)
    (hmin : ∀ j b, j < i → table[j]? = some b →
      slotMatches r.device_id r.channel b = false) :
    trackerStep table r =
      if deltaExceeded r.temp_deci a.last_temperature then
        (TrackerRes.deltaTooLarge a.last_temperature r.temp_deci, table)
      else
        (TrackerRes.accepted,
         table.set i ⟨r.device_id, r.channel, r.temp_deci, true⟩) := by
  unfold trackerStep
  rw [device_index_matched table r.device_id r.channel i a ha hm hmin]
  have hgetD : table.getD i ⟨0, 0, 0, false⟩ = a := by
    rw [List.getD_eq_getElem?_getD, ha]; rfl
  have hinit : a.initialized = true := ((slotMatches_iff _ _ _).mp hm).1
  simp only [hgetD, hinit, true_and]

lemma trackerStep_new (table : List device_state_t) (r : Reading)
    (hnm : ∀ s ∈ table, slotMatches r.device_id r.channel s = false)
    (hfree : ∃ s ∈ table, s.initialized = false) :
    ∃ i a, table[i]? = some a ∧ a.initialized = false ∧
      trackerStep table r =
        (TrackerRes.accepted,
         table.set i ⟨r.device_id, r.channel, r.temp_deci, true⟩) := by
  unfold trackerStep
  cases hd : device_index table r.device_id r.channel with
  | none =>
    obtain ⟨s, hs, hsi⟩ := hfree
    have := ((device_index_eq_none_iff table r.device_id r.channel).mp hd).2 s hs
    rw [this] at hsi
    cases hsi
  | some i =>
    unfold device_index at hd
    cases hmatch : firstIdx (slotMatches r.device_id r.channel) table with
    | some k =>
      obtain ⟨a, ha, hpa, -⟩ := firstIdx_some_spec _ _ _ hmatch
      obtain ⟨hlt, rfl⟩ := List.getElem?_eq_some_iff.mp ha
      rw [hnm _ (List.getElem_mem hlt)] at hpa
      cases hpa
    | none =>
      rw [hmatch] at hd
      obtain ⟨a, ha, hpa, -⟩ := firstIdx_some_spec _ _ _ hd
      have hainit : a.initialized = false := by simpa using hpa
      refine ⟨i, a, ha, hainit, ?_⟩
      have hgetD : table.getD i ⟨0, 0, 0, false⟩ = a := by
        rw [List.getD_eq_getElem?_getD, ha]; rfl
      simp only [hgetD, hainit]
      rw [if_neg]
      simp

lemma trackerStep_other_slot (table : List device_state_t) (r : Reading)
    (k : Nat) (a : device_state_t) (ha : table[k]? = some a)
    (hai : a.initialized = true)
    (hne : ¬(a.device_id = r.device_id ∧ a.channel = r.channel)) :
    (trackerStep table r).2[k]? = table[k]? := by
  unfold trackerStep
  cases hd : device_index table r.device_id r.channel with
  | none => rfl
  | some i =>
    have hik : i ≠ k := by
      intro h
      subst h
      unfold device_index at hd
      cases hmatch : firstIdx (slotMatches r.device_id r.channel) table with
      | some j =>
        rw [hmatch] at hd
        cases hd
        obtain ⟨b, hb, hpb, -⟩ := firstIdx_some_spec _ _ _ hmatch
        rw [ha] at hb
        cases hb
        obtain ⟨-, h1, h2⟩ := (slotMatches_iff _ _ _).mp hpb
        exact hne ⟨h1, h2⟩
      | none =>
        rw [hmatch] at hd
        obtain ⟨b, hb, hpb, -⟩ := firstIdx_some_spec _ _ _ hd
        rw [ha] at hb
        cases hb
        rw [hai] at hpb
        simp at hpb
    simp only []
    split
    · rfl
    · simp only []
      rw [List.getElem?_set_ne hik]

lemma trackerStep_invariant (table : List device_state_t) (r : Reading)
    (h : trackerInvariant table) : trackerInvariant (trackerStep table r).2 := by
  unfold trackerStep
  cases hd : device_index table r.device_id r.channel with
  | none => exact h
  | some i =>
    simp only []
    split
    · exact h
    · simp only []
      unfold trackerInvariant at h ⊢
      rw [List.pairwise_iff_getElem] at h ⊢
      -- key fact: the written slot i is either the first matching slot
      -- (initialized, same pair) or a free slot found because no slot
      -- matches at all; either way no slot other than i holds an
      -- initialized entry with the candidate's pair
      have hkey : ∀ (y' : Nat) (hy' : y' < table.length), y' ≠ i →
          table[y'].initialized = true →
          table[y'].device_id = r.device_id →
          table[y'].channel = r.channel → False := by
        intro y' hy' hyne hyinit hyid hych
        unfold device_index at hd
        cases hmatch : firstIdx (slotMatches r.device_id r.channel) table with
        | some j =>
          rw [hmatch] at hd
          injection hd with hji
          subst hji
          obtain ⟨b, hb, hpb, -⟩ := firstIdx_some_spec _ _ _ hmatch
          obtain ⟨hblt, hbeq⟩ := List.getElem?_eq_some_iff.mp hb
          obtain ⟨hbinit, hbid, hbch⟩ := (slotMatches_iff _ _ _).mp hpb
          rw [← hbeq] at hbinit hbid hbch
          rcases Nat.lt_or_ge j y' with hlt | hge
          · exact h j y' hblt hy' hlt hbinit hyinit
              ⟨by rw [hbid, hyid], by rw [hbch, hych]⟩
          · have hlt2 : y' < j := by omega
            exact h y' j hy' hblt hlt2 hyinit hbinit
              ⟨by rw [hbid, hyid], by rw [hbch, hych]⟩
        | none =>
          have hnone := (firstIdx_eq_none_iff _ _).mp hmatch
          have hsm := hnone table[y'] (List.getElem_mem hy')
          rw [(slotMatches_iff r.device_id r.channel table[y']).2
            ⟨hyinit, hyid, hych⟩] at hsm
          cases hsm
      intro x y hx hy hxy
      have hx' : x < table.length := by simpa using hx
      have hy' : y < table.length := by simpa using hy
      rw [List.getElem_set, List.getElem_set]
      by_cases hix : i = x
      · rw [if_pos hix, if_neg (by omega)]
        intro _hn hyinit hpair
        exact hkey y hy' (by omega) hyinit hpair.1.symm hpair.2.symm
      · rw [if_neg hix]
        by_cases hiy : i = y
        · rw [if_pos hiy]
          intro hxinit _hn hpair
          exact hkey x hx' (by omega) hxinit hpair.1 hpair.2
        · rw [if_neg hiy]
          exact h x y hx' hy' hxy

lemma initStates_invariant (st : DecoderState)
    (h : trackerInvariant st.device_states) :
    trackerInvariant (initStates st).device_states := by
  unfold initStates
  split
  · exact h
  · simp only []
    unfold trackerInvariant
    rw [List.pairwise_map]
    refine h.imp ?_
    intro a b _hab h1
    simp at h1

lemma decode_bb_unchanged (st : DecoderState) (bb : BitBuffer)
    (h : rawChecksPass bb = false) :
    (oria_wa150km_decode st bb).2.2 = bb := by
  unfold rawChecksPass at h
  unfold oria_wa150km_decode
  cases hfr : findRow bb with
  | none => rfl
  | some r =>
    rw [hfr] at h
    simp only [] at h
    simp only []
    cases hw : warmupFail (bb.getD r ⟨[], 0⟩) with
    | some i => rfl
    | none =>
      rw [hw] at h
      simp only [Option.isNone_none, Bool.true_and, beq_eq_false_iff_ne,
        ne_eq] at h
      simp only []
      rw [if_pos h]

lemma decode_bb_inverted (st : DecoderState) (bb : BitBuffer)
    (h : rawChecksPass bb = true) :
    (oria_wa150km_decode st bb).2.2 = bitbuffer_invert bb := by
  unfold rawChecksPass at h
  unfold oria_wa150km_decode
  cases hfr : findRow bb with
  | none => rw [hfr] at h; cases h
  | some r =>
    rw [hfr] at h
    simp only [] at h
    simp only []
    cases hw : warmupFail (bb.getD r ⟨[], 0⟩) with
    | some i => rw [hw] at h; simp at h
    | none =>
      rw [hw] at h
      simp only [Option.isNone_none, Bool.true_and, beq_iff_eq] at h
      simp only []
      rw [if_neg (fun hne => hne h)]
      split
      · rfl
      · split
        · rfl
        · split
          · rfl
          · rfl
          · rfl

lemma decode_invariant (st : DecoderState) (bb : BitBuffer)
    (h : trackerInvariant st.device_states) :
    trackerInvariant (oria_wa150km_decode st bb).2.1.device_states := by
  unfold oria_wa150km_decode
  cases hfr : findRow bb with
  | none => exact h
  | some r =>
    simp only []
    cases hw : warmupFail (bb.getD r ⟨[], 0⟩) with
    | some i => exact h
    | none =>
      simp only []
      split
      · exact h
      · split
        · exact h
        · split
          · exact h
          · next reading hgate =>
            split
            · exact initStates_invariant st h
            · exact initStates_invariant st h
            · next table' heq =>
              have h2 := trackerStep_invariant (initStates st).device_states
                reading (initStates_invariant st h)
              rw [heq] at h2
              simpa using h2

lemma decodeSeq_invariant (st : DecoderState) (bbs : List BitBuffer)
    (h : trackerInvariant st.device_states) :
    trackerInvariant (decodeSeq st bbs).device_states := by
  induction bbs generalizing st with
  | nil => exact h
  | cons bb bbs ih =>
    rw [decodeSeq, List.foldl_cons]
    exact ih _ (decode_invariant st bb h)

lemma findRow_lt_length (bb : BitBuffer) (r : Nat) (h : findRow bb = some r) :
    r < bb.length :=
  firstIdx_lt_length _ _ _ h

lemma getD_bitbuffer_invert (bb : BitBuffer) (r : Nat) (hr : r < bb.length) :
    (bitbuffer_invert bb).getD r ⟨[], 0⟩ = invertRow (bb.getD r ⟨[], 0⟩) := by
  unfold bitbuffer_invert
  exact getD_map_of_lt bb invertRow r hr ⟨[], 0⟩ ⟨[], 0⟩

lemma packByte_zero_of_short (dbits : List Nat) (j : Nat)
    (h : dbits.length ≤ 8 * j) : packByte dbits j = 0 := by
  have h0 : ∀ i, 8 * j ≤ i → dbits[i]?.getD 0 = 0 := by
    intro i hi
    rw [List.getElem?_eq_none (by omega)]
    rfl
  unfold packByte
  rw [show List.range 8 = [0, 1, 2, 3, 4, 5, 6, 7] from rfl]
  simp [List.foldl_cons, List.foldl_nil, h0]

lemma decodedFrame_getD (row : BitRow) (j : Nat) (hj : j < 14) :
    (decodedFrame row).getD j 0 =
      reflectByte (packByte (manchesterDecodeBits row 0 ORIA_WA150KM_BITLEN) j) := by
  unfold decodedFrame
  exact getD_map_range _ 14 j hj 0

lemma decode_manchester_short (st : DecoderState) (bb : BitBuffer) (r : Nat)
    (hr : findRow bb = some r)
    (hw : warmupFail (bb.getD r ⟨[], 0⟩) = none)
    (ht : rowByte (bb.getD r ⟨[], 0⟩) ((bb.getD r ⟨[], 0⟩).bits / 8 - 1) = 0x69)
    (hm : (manchesterDecodeBits (invertRow (bb.getD r ⟨[], 0⟩)) 0
        ORIA_WA150KM_BITLEN).length ≤ 104) :
    (oria_wa150km_decode st bb).1 =
      DecodeOutcome.fail (Reject.sanityTrailerMismatch 0) := by
  have hrl := findRow_lt_length bb r hr
  have hb13 : (decodedFrame ((bitbuffer_invert bb).getD r ⟨[], 0⟩)).getD 13 0
      = 0 := by
    rw [getD_bitbuffer_invert bb r hrl, decodedFrame_getD _ 13 (by norm_num),
      packByte_zero_of_short _ 13 (by omega)]
    decide
  unfold oria_wa150km_decode
  rw [hr]
  simp only []
  rw [hw]
  simp only []
  rw [if_neg (fun hne => hne ht)]
  rw [hb13]
  rw [if_pos (by decide)]

lemma shiftRight_and_one (x p : Nat) : (x >>> p) &&& 1 = (x.testBit p).toNat := by
  rw [Nat.and_one_is_mod, Nat.shiftRight_eq_div_pow, Nat.testBit_to_div_mod]
  rcases Nat.mod_two_eq_zero_or_one (x / 2 ^ p) with h | h <;> simp [h]

lemma getBit_invertRow (row : BitRow) (k : Nat) (hk : k < row.bits)
    (hk2 : k < 8 * row.bytes.length) :
    getBit (invertRow row) k = 1 - getBit row k := by
  have hi : k / 8 < row.bytes.length := by omega
  have hbyte : rowByte (invertRow row) (k / 8) =
      (row.bytes.getD (k / 8) 0 ^^^ 0xFF) ^^^
        (0xFF >>> usedBitsInByte row.bits (k / 8)) := by
    unfold invertRow rowByte
    exact getD_map_range _ _ _ hi 0
  have hused : k % 8 < usedBitsInByte row.bits (k / 8) := by
    unfold usedBitsInByte
    split
    · omega
    · split
      · omega
      · omega
  unfold getBit
  rw [hbyte, shiftRight_and_one, shiftRight_and_one]
  rw [Nat.testBit_xor, Nat.testBit_xor]
  rw [show (0xFF : Nat) = 2 ^ 8 - 1 from rfl]
  rw [Nat.testBit_shiftRight, Nat.testBit_two_pow_sub_one,
    Nat.testBit_two_pow_sub_one]
  have hd1 : decide (7 - k % 8 < 8) = true := by simp; omega
  have hd2 : decide (usedBitsInByte row.bits (k / 8) + (7 - k % 8) < 8)
      = false := by
    simp
    omega
  rw [hd1, hd2]
  unfold rowByte
  cases hb : (row.bytes.getD (k / 8) 0).testBit (7 - k % 8)
  · rfl
  · rfl

lemma oriaChannel_pos (b : List Nat) : 1 ≤ oriaChannel b := by
  unfold oriaChannel
  omega

lemma oriaChannel_le (b : List Nat) : oriaChannel b ≤ 16 := by
  unfold oriaChannel
  have h := Nat.and_le_right (n := b.getD 5 0 >>> 4) (m := 0x0F)
  omega

lemma oriaChannel_cond_false (b : List Nat) :
    ¬(oriaChannel b < 1 ∨ oriaChannel b > 16) := by
  have h1 := oriaChannel_pos b
  have h2 := oriaChannel_le b
  omega

/-! Error analysis of the scaled-integer rounding model.  The chain bounds
the distance between the float32 temperature and the exact deci-degree
value (at most 2^47 in units of 2^-60 after scaling by 10), and concludes
that the C delta comparison agrees with the exact deci-degree comparison
whenever the deci delta is at most 119 (accept) or at least 121 (reject);
only exact-12.0 deltas (deci delta 120) can fall on either side. -/

lemma roundToMultiple_err (x U : Int) (hU : 0 < U) :
    2 * |roundToMultiple x U - x| ≤ U := by
  have hqr : U * (x.ediv U) + x.emod U = x := Int.ediv_add_emod x U
  have hr0 : 0 ≤ x.emod U := Int.emod_nonneg x (ne_of_gt hU)
  have hrU : x.emod U < U := Int.emod_lt_of_pos x hU
  unfold roundToMultiple
  simp only []
  split
  · next h =>
    have ha : x.ediv U * U - x = -(x.emod U) := by linear_combination hqr
    rw [ha, abs_neg, abs_of_nonneg hr0]
    linarith
  · next h1 =>
    split
    · next h2 =>
      have ha : (x.ediv U + 1) * U - x = U - x.emod U := by
        linear_combination hqr
      rw [ha, abs_of_nonneg (by linarith)]
      linarith
    · next h2 =>
      split
      · next h3 =>
        have ha : x.ediv U * U - x = -(x.emod U) := by linear_combination hqr
        rw [ha, abs_neg, abs_of_nonneg hr0]
        linarith
      · next h3 =>
        have ha : (x.ediv U + 1) * U - x = U - x.emod U := by
          linear_combination hqr
        rw [ha, abs_of_nonneg (by linarith)]
        linarith

lemma expSearch_le (x : Int) (K : Nat) (hx : x ≤ 2 ^ K) :
    ∀ (fuel e : Nat), e ≤ K + fuel → expSearch x fuel e ≤ K := by
  intro fuel
  induction fuel with
  | zero =>
    intro e he
    rw [show expSearch x 0 e = e from rfl]
    omega
  | succ n ih =>
    intro e he
    rw [show expSearch x (n + 1) e =
        if (2 : Int) ^ e ≤ x then e else expSearch x n (e - 1) from rfl]
    split
    · next h =>
      exact (pow_le_pow_iff_right₀ (by norm_num)).mp (le_trans h hx)
    · next h =>
      exact ih (e - 1) (by omega)

lemma scaledExp_le (x : Int) (K : Nat) (hx : x ≤ 2 ^ K) : scaledExp x ≤ K := by
  unfold scaledExp
  exact expSearch_le x K hx 121 120 (by omega)

lemma roundSigPos_err (p : Nat) (x : Int) (K : Nat) (hx : x ≤ 2 ^ K) :
    2 * |roundSigPos p x - x| ≤ 2 ^ (K + 1 - p) := by
  have h1 : scaledExp x ≤ K := scaledExp_le x K hx
  have hU : (0 : Int) < 2 ^ (scaledExp x + 1 - p) := pow_pos (by norm_num) _
  have h2 := roundToMultiple_err x (2 ^ (scaledExp x + 1 - p)) hU
  unfold roundSigPos
  exact le_trans h2 (pow_le_pow_right₀ (by norm_num) (by omega))

lemma roundSig_err (p : Nat) (x : Int) (K : Nat) (hx : |x| ≤ 2 ^ K) :
    2 * |roundSig p x - x| ≤ 2 ^ (K + 1 - p) := by
  unfold roundSig
  split
  · next h =>
    have heq : -roundSigPos p (-x) - x = -(roundSigPos p (-x) - (-x)) := by
      ring
    rw [heq, abs_neg]
    exact roundSigPos_err p (-x) K (by rw [abs_of_neg h] at hx; exact hx)
  · next h =>
    split
    · next h0 =>
      subst h0
      simp
    · next h0 =>
      exact roundSigPos_err p x K
        (by rw [abs_of_nonneg (by omega)] at hx; exact hx)

lemma roundSig_err_half (p : Nat) (x : Int) (K : Nat) (hp : p ≤ K)
    (hx : |x| ≤ 2 ^ K) : |roundSig p x - x| ≤ 2 ^ (K - p) := by
  have h := roundSig_err p x K hx
  have heq : (2 : Int) ^ (K + 1 - p) = 2 * 2 ^ (K - p) := by
    rw [show K + 1 - p = (K - p) + 1 from by omega, pow_succ]
    ring
  rw [heq] at h
  linarith [abs_nonneg (roundSig p x - x)]

lemma float32Temperature_err (tens ones dec : Nat)
    (ht : tens ≤ 9) (ho : ones ≤ 9) (hd : dec ≤ 9) :
    |10 * float32Temperature tens ones dec -
        ((tens : Int) * 100 + (ones : Int) * 10 + (dec : Int)) * FSCALE|
      ≤ 2 ^ 47 := by
  have htz : (tens : Int) ≤ 9 := by exact_mod_cast ht
  have hoz : (ones : Int) ≤ 9 := by exact_mod_cast ho
  have hdz : (dec : Int) ≤ 9 := by exact_mod_cast hd
  have htz0 : (0 : Int) ≤ (tens : Int) := by omega
  have hoz0 : (0 : Int) ≤ (ones : Int) := by omega
  have hdz0 : (0 : Int) ≤ (dec : Int) := by omega
  have hdpos : (0 : Int) < double_0_1 := by norm_num [double_0_1]
  have hFval : FSCALE = 1152921504606846976 := by norm_num [FSCALE]
  have hp60 : (2 : Int) ^ 60 = 1152921504606846976 := by norm_num
  have hp67 : (2 : Int) ^ 67 = 147573952589676412928 := by norm_num
  have hp47 : (2 : Int) ^ 47 = 140737488355328 := by norm_num
  have hkey : 10 * double_0_1 - FSCALE = 64 := by norm_num [double_0_1, FSCALE]
  have hx1abs : |(dec : Int) * double_0_1| ≤ 2 ^ 60 := by
    rw [abs_of_nonneg (mul_nonneg hdz0 (le_of_lt hdpos))]
    calc (dec : Int) * double_0_1 ≤ 9 * double_0_1 :=
          mul_le_mul_of_nonneg_right hdz (le_of_lt hdpos)
      _ ≤ 2 ^ 60 := by norm_num [double_0_1]
  unfold float32Temperature
  obtain ⟨m1, hm1def⟩ :
      ∃ m : Int, m = roundSig 53 ((dec : Int) * double_0_1) := ⟨_, rfl⟩
  rw [← hm1def]
  obtain ⟨m2, hm2def⟩ :
      ∃ m : Int,
        m = roundSig 53 (((tens : Int) * 10 + (ones : Int)) * FSCALE + m1) :=
    ⟨_, rfl⟩
  rw [← hm2def]
  obtain ⟨res, hresdef⟩ : ∃ m : Int, m = roundSig 24 m2 := ⟨_, rfl⟩
  rw [← hresdef]
  have he1 := roundSig_err_half 53 ((dec : Int) * double_0_1) 60 (by norm_num)
    hx1abs
  rw [← hm1def] at he1
  have hq7 : (2 : Int) ^ (60 - 53) = 128 := by norm_num
  have hm1bnd : |m1| ≤ 1152921504606847104 := by
    obtain ⟨a1, a2⟩ := abs_le.mp he1
    obtain ⟨b1, b2⟩ := abs_le.mp hx1abs
    rw [abs_le]
    constructor <;> linarith
  have hstep2 : |10 * m1 - (dec : Int) * FSCALE| ≤ 1856 := by
    have heq : 10 * m1 - (dec : Int) * FSCALE =
        10 * (m1 - (dec : Int) * double_0_1) + (dec : Int) * 64 := by
      linear_combination (dec : Int) * hkey
    obtain ⟨a1, a2⟩ := abs_le.mp he1
    rw [heq, abs_le]
    constructor <;> linarith
  have hterm0 : (0 : Int) ≤ ((tens : Int) * 10 + (ones : Int)) * FSCALE :=
    mul_nonneg (by linarith) (by rw [hFval]; norm_num)
  have hterm99 : ((tens : Int) * 10 + (ones : Int)) * FSCALE ≤ 99 * FSCALE :=
    mul_le_mul_of_nonneg_right (by linarith) (by rw [hFval]; norm_num)
  have hx2abs : |((tens : Int) * 10 + (ones : Int)) * FSCALE + m1| ≤ 2 ^ 67 := by
    obtain ⟨a1, a2⟩ := abs_le.mp hm1bnd
    rw [abs_le]
    constructor <;> linarith
  have he2 := roundSig_err_half 53
    (((tens : Int) * 10 + (ones : Int)) * FSCALE + m1) 67 (by norm_num) hx2abs
  rw [← hm2def] at he2
  have hq14 : (2 : Int) ^ (67 - 53) = 16384 := by norm_num
  have hm2bnd : |m2| ≤ 115292150460684714112 := by
    obtain ⟨a1, a2⟩ := abs_le.mp he2
    obtain ⟨b1, b2⟩ := abs_le.mp hm1bnd
    rw [abs_le]
    constructor <;> linarith
  have hm2abs : |m2| ≤ 2 ^ 67 := le_trans hm2bnd (by norm_num)
  have he3 := roundSig_err_half 24 m2 67 (by norm_num) hm2abs
  rw [← hresdef] at he3
  have hq43 : (2 : Int) ^ (67 - 24) = 8796093022208 := by norm_num
  have hstep4 : |10 * m2 -
      ((tens : Int) * 100 + (ones : Int) * 10 + (dec : Int)) * FSCALE|
      ≤ 165696 := by
    have heq : 10 * m2 -
        ((tens : Int) * 100 + (ones : Int) * 10 + (dec : Int)) * FSCALE =
        10 * (m2 - (((tens : Int) * 10 + (ones : Int)) * FSCALE + m1)) +
          (10 * m1 - (dec : Int) * FSCALE) := by
      ring
    obtain ⟨a1, a2⟩ := abs_le.mp he2
    obtain ⟨b1, b2⟩ := abs_le.mp hstep2
    rw [heq, abs_le]
    constructor <;> linarith
  have heqf : 10 * res -
      ((tens : Int) * 100 + (ones : Int) * 10 + (dec : Int)) * FSCALE =
      10 * (res - m2) +
        (10 * m2 -
          ((tens : Int) * 100 + (ones : Int) * 10 + (dec : Int)) * FSCALE) := by
    ring
  obtain ⟨a1, a2⟩ := abs_le.mp he3
  obtain ⟨b1, b2⟩ := abs_le.mp hstep4
  rw [heqf, abs_le]
  constructor <;> linarith

lemma float32OfDeci_err (t : Int) (hb : t.natAbs ≤ 999) :
    |10 * float32OfDeci t - t * FSCALE| ≤ 2 ^ 47 := by
  have h1 : t.natAbs / 100 ≤ 9 := by omega
  have h2 : t.natAbs / 10 % 10 ≤ 9 := by omega
  have h3 : t.natAbs % 10 ≤ 9 := by omega
  have hdig : ((t.natAbs / 100 : Nat) : Int) * 100 +
      ((t.natAbs / 10 % 10 : Nat) : Int) * 10 + ((t.natAbs % 10 : Nat) : Int) =
      (t.natAbs : Int) := by
    omega
  have herr := float32Temperature_err (t.natAbs / 100) (t.natAbs / 10 % 10)
    (t.natAbs % 10) h1 h2 h3
  rw [hdig] at herr
  unfold float32OfDeci
  split
  · next h =>
    have hcast : (t.natAbs : Int) = -t := by omega
    rw [hcast] at herr
    have heq : (10 : Int) * -float32Temperature (t.natAbs / 100)
        (t.natAbs / 10 % 10) (t.natAbs % 10) - t * FSCALE =
        -(10 * float32Temperature (t.natAbs / 100) (t.natAbs / 10 % 10)
          (t.natAbs % 10) - (-t) * FSCALE) := by
      ring
    rw [heq, abs_neg]
    exact herr
  · next h =>
    have hcast : (t.natAbs : Int) = t := by omega
    rw [hcast] at herr
    exact herr

lemma float32OfDeci_bound (t : Int) (hb : t.natAbs ≤ 999) :
    |float32OfDeci t| ≤ 2 ^ 67 := by
  have h := float32OfDeci_err t hb
  obtain ⟨h1, h2⟩ := abs_le.mp h
  have hFpos : (0 : Int) < FSCALE := by norm_num [FSCALE]
  have ht : |t| ≤ 999 := by
    rw [Int.abs_eq_natAbs]
    exact_mod_cast hb
  have htF : |t * FSCALE| ≤ 999 * FSCALE := by
    rw [abs_mul, abs_of_pos hFpos]
    exact mul_le_mul_of_nonneg_right ht (le_of_lt hFpos)
  obtain ⟨h5, h6⟩ := abs_le.mp htF
  have hFval : FSCALE = 1152921504606846976 := by norm_num [FSCALE]
  have hp67 : (2 : Int) ^ 67 = 147573952589676412928 := by norm_num
  have hp47 : (2 : Int) ^ 47 = 140737488355328 := by norm_num
  rw [abs_le]
  constructor <;> linarith

lemma delta_scaled_err (cand stored : Int) (hc : cand.natAbs ≤ 999)
    (hs : stored.natAbs ≤ 999) :
    |10 * roundSig 24 (float32OfDeci cand - float32OfDeci stored) -
        (cand - stored) * FSCALE| ≤ 457396837154816 := by
  have hdc := float32OfDeci_err cand hc
  have hds := float32OfDeci_err stored hs
  have hbc := float32OfDeci_bound cand hc
  have hbs := float32OfDeci_bound stored hs
  have hp67 : (2 : Int) ^ 67 = 147573952589676412928 := by norm_num
  have hp68 : (2 : Int) ^ 68 = 295147905179352825856 := by norm_num
  have hp47 : (2 : Int) ^ 47 = 140737488355328 := by norm_num
  have hdiff : |float32OfDeci cand - float32OfDeci stored| ≤ 2 ^ 68 := by
    obtain ⟨a1, a2⟩ := abs_le.mp hbc
    obtain ⟨b1, b2⟩ := abs_le.mp hbs
    rw [abs_le]
    constructor <;> linarith
  have he := roundSig_err_half 24 (float32OfDeci cand - float32OfDeci stored)
    68 (by norm_num) hdiff
  have hq44 : (2 : Int) ^ (68 - 24) = 17592186044416 := by norm_num
  have heq : 10 * roundSig 24 (float32OfDeci cand - float32OfDeci stored) -
      (cand - stored) * FSCALE =
      10 * (roundSig 24 (float32OfDeci cand - float32OfDeci stored) -
          (float32OfDeci cand - float32OfDeci stored)) +
        (10 * float32OfDeci cand - cand * FSCALE) -
        (10 * float32OfDeci stored - stored * FSCALE) := by
    ring
  obtain ⟨e1, e2⟩ := abs_le.mp he
  obtain ⟨c1, c2⟩ := abs_le.mp hdc
  obtain ⟨s1, s2⟩ := abs_le.mp hds
  rw [heq, abs_le]
  constructor <;> linarith

lemma not_deltaExceeded_of_small (cand stored : Int) (hc : cand.natAbs ≤ 999)
    (hs : stored.natAbs ≤ 999)
    (hd : (cand - stored).natAbs ≤ 119) : ¬deltaExceeded cand stored := by
  unfold deltaExceeded
  rw [not_lt]
  have h := delta_scaled_err cand stored hc hs
  obtain ⟨h1, h2⟩ := abs_le.mp h
  have hdz : |cand - stored| ≤ 119 := by
    rw [Int.abs_eq_natAbs]
    exact_mod_cast hd
  have hFpos : (0 : Int) < FSCALE := by norm_num [FSCALE]
  have htF : |(cand - stored) * FSCALE| ≤ 119 * FSCALE := by
    rw [abs_mul, abs_of_pos hFpos]
    exact mul_le_mul_of_nonneg_right hdz (le_of_lt hFpos)
  obtain ⟨h3, h4⟩ := abs_le.mp htF
  have hFval : FSCALE = 1152921504606846976 := by norm_num [FSCALE]
  have hM : MAX_TEMP_DELTA_SCALED = 13835058055282163712 := by
    norm_num [MAX_TEMP_DELTA_SCALED, FSCALE]
  rw [hM, abs_le]
  constructor <;> linarith

lemma deltaExceeded_of_large (cand stored : Int) (hc : cand.natAbs ≤ 999)
    (hs : stored.natAbs ≤ 999)
    (hd : 121 ≤ (cand - stored).natAbs) : deltaExceeded cand stored := by
  unfold deltaExceeded
  have h := delta_scaled_err cand stored hc hs
  have hdz : 121 ≤ |cand - stored| := by
    rw [Int.abs_eq_natAbs]
    exact_mod_cast hd
  have hFpos : (0 : Int) < FSCALE := by norm_num [FSCALE]
  have htF : 121 * FSCALE ≤ |(cand - stored) * FSCALE| := by
    rw [abs_mul, abs_of_pos hFpos]
    exact mul_le_mul_of_nonneg_right hdz (le_of_lt hFpos)
  have habs : |(cand - stored) * FSCALE| -
      |10 * roundSig 24 (float32OfDeci cand - float32OfDeci stored)| ≤
      457396837154816 := by
    refine le_trans (abs_sub_abs_le_abs_sub _ _) ?_
    rw [abs_sub_comm]
    exact h
  have h10 : |10 * roundSig 24 (float32OfDeci cand - float32OfDeci stored)| =
      10 * |roundSig 24 (float32OfDeci cand - float32OfDeci stored)| := by
    rw [abs_mul, abs_of_pos (by norm_num : (0 : Int) < 10)]
  have hFval : FSCALE = 1152921504606846976 := by norm_num [FSCALE]
  have hM : MAX_TEMP_DELTA_SCALED = 13835058055282163712 := by
    norm_num [MAX_TEMP_DELTA_SCALED, FSCALE]
  rw [hM]
  linarith [htF, habs, h10]

/-! The claims. -/

/-- C1: for every 14-byte decoded frame that passes the trailer sanity
check, the candidate reading is extracted exactly as: channel = (upper 4
bits of byte 5) + 1; device_id = byte 6 verbatim; temperature (in
deci-degrees) = tens*100 + ones*10 + fractional, where the fractional digit
is the upper nibble of byte 7 and the tens/ones digits are the upper/lower
nibbles of byte 8; and the temperature is negated if and only if bit 3
(mask 0x08) of byte 9 is set. -/
theorem C1_field_extraction (b : List Nat) (r : Reading)
    (hbytes : ∀ x ∈ b, x < 256) (h13 : b.getD 13 0 = 0x65)
    (hok : oriaExtractGate b = Except.ok r) :
    r.channel = b.getD 5 0 >>> 4 + 1 ∧
    r.device_id = b.getD 6 0 ∧
    r.temp_deci = (if b.getD 9 0 &&& 0x08 ≠ 0 then (-1 : Int) else 1) *
      (((b.getD 8 0 >>> 4 : Nat) : Int) * 100 +
        ((b.getD 8 0 &&& 0x0F : Nat) : Int) * 10 +
        ((b.getD 7 0 >>> 4 : Nat) : Int)) := by
  unfold oriaExtractGate at hok
  rw [if_neg (oriaChannel_cond_false b)] at hok
  by_cases h2 : 9 < oriaTempDecimalNibble b ∨ 9 < oriaTempTensNibble b
      ∨ 9 < oriaTempOnesNibble b
  · rw [if_pos h2] at hok
    cases hok
  · rw [if_neg h2] at hok
    by_cases h3 : oriaTempDeci b < -400 ∨ 600 < oriaTempDeci b
    · rw [if_pos h3] at hok
      cases hok
    · rw [if_neg h3] at hok
      injection hok with hok'
      subst hok'
      refine ⟨?_, rfl, ?_⟩
      · unfold oriaChannel
        rw [shift4_and15 _ (getD_lt_256 b hbytes 5)]
      · unfold oriaTempDeci oriaTempTensNibble oriaTempOnesNibble
          oriaTempDecimalNibble
        rw [shift4_and15 _ (getD_lt_256 b hbytes 8),
          shift4_and15 _ (getD_lt_256 b hbytes 7)]
        split
        · push_cast
          ring
        · push_cast
          ring

/-- C1 witness: the valid example frame passes the gate and its extracted
fields match the layout formulas. -/
theorem C1_field_extraction_witness :
    validFrame.getD 13 0 = 0x65 ∧
    oriaExtractGate validFrame = Except.ok ⟨0x42, 1, 215⟩ ∧
    ((0x42 : Nat) = validFrame.getD 6 0 ∧
     (1 : Nat) = validFrame.getD 5 0 >>> 4 + 1 ∧
     (215 : Int) = 215) ∧
    ((⟨0x42, 1, 215⟩ : Reading).channel = validFrame.getD 5 0 >>> 4 + 1 ∧
     (⟨0x42, 1, 215⟩ : Reading).device_id = validFrame.getD 6 0 ∧
     (⟨0x42, 1, 215⟩ : Reading).temp_deci =
       (if validFrame.getD 9 0 &&& 0x08 ≠ 0 then (-1 : Int) else 1) *
         (((validFrame.getD 8 0 >>> 4 : Nat) : Int) * 100 +
           ((validFrame.getD 8 0 &&& 0x0F : Nat) : Int) * 10 +
           ((validFrame.getD 7 0 >>> 4 : Nat) : Int))) :=
  ⟨by decide, by decide, by decide,
   C1_field_extraction validFrame ⟨0x42, 1, 215⟩ (by decide) (by decide)
     (by decide)⟩

/-- C6: for every value of byte 5, the derived channel (upper nibble + 1)
lies in 1..16, so the channel range check's failure branch
(ChannelOutOfRange) is unreachable: no input to the field extractor can
produce that rejection. -/
theorem C6_channel_check_unreachable (b : List Nat) (c : Nat) :
    (1 ≤ oriaChannel b ∧ oriaChannel b ≤ 16) ∧
    oriaExtractGate b ≠ Except.error (Reject.channelOutOfRange c) := by
  refine ⟨⟨oriaChannel_pos b, oriaChannel_le b⟩, ?_⟩
  unfold oriaExtractGate
  rw [if_neg (oriaChannel_cond_false b)]
  split
  · simp
  · split
    · simp
    · simp

/-- C6 witness: instantiated at the valid example frame and channel 3. -/
theorem C6_channel_check_unreachable_witness :
    (1 ≤ oriaChannel validFrame ∧ oriaChannel validFrame ≤ 16) ∧
    oriaExtractGate validFrame ≠
      Except.error (Reject.channelOutOfRange 3) :=
  C6_channel_check_unreachable validFrame 3

/-- C8: for every decoded frame, the candidate is rejected with InvalidBcd
exactly when at least one of the three temperature nibbles (upper nibble of
byte 7, upper nibble of byte 8, lower nibble of byte 8) exceeds 9,
regardless of the values of all other fields. -/
theorem C8_invalid_bcd_iff (b : List Nat) :
    (∃ d t o, oriaExtractGate b = Except.error (Reject.invalidBcd d t o)) ↔
      (9 < oriaTempDecimalNibble b ∨ 9 < oriaTempTensNibble b ∨
        9 < oriaTempOnesNibble b) := by
  unfold oriaExtractGate
  rw [if_neg (oriaChannel_cond_false b)]
  by_cases h2 : 9 < oriaTempDecimalNibble b ∨ 9 < oriaTempTensNibble b
      ∨ 9 < oriaTempOnesNibble b
  · rw [if_pos h2]
    simp only [h2, iff_true]
    exact ⟨oriaTempDecimalNibble b, oriaTempTensNibble b,
      oriaTempOnesNibble b, rfl⟩
  · rw [if_neg h2]
    simp only [h2, iff_false]
    rintro ⟨d, t, o, hdto⟩
    split at hdto
    · simp at hdto
    · cases hdto

/-- C8 witness: a frame with tens nibble 0xA is rejected with InvalidBcd. -/
theorem C8_invalid_bcd_iff_witness :
    ∃ d t o,
      oriaExtractGate
          [0xFF, 0xFF, 0xFF, 0xFA, 0x20, 0x00, 0x42, 0x50, 0xA1, 0x00, 0x00,
           0x00, 0x00, 0x65] =
        Except.error (Reject.invalidBcd d t o) :=
  (C8_invalid_bcd_iff
    [0xFF, 0xFF, 0xFF, 0xFA, 0x20, 0x00, 0x42, 0x50, 0xA1, 0x00, 0x00, 0x00,
     0x00, 0x65]).mpr (by decide)

/-- C7: the temperature range check is inclusive at both boundaries: with
valid BCD digits, a computed temperature of exactly -40.0 (deci -400) or
exactly 60.0 (deci 600) passes the range gate and yields the candidate
reading, while -40.1 (deci -401) and 60.1 (deci 601), the nearest
representable BCD-derived values outside the range, are rejected with
TemperatureOutOfRange. -/
theorem C7_temperature_boundaries (b : List Nat)
    (hbcd : oriaTempDecimalNibble b ≤ 9 ∧ oriaTempTensNibble b ≤ 9 ∧
      oriaTempOnesNibble b ≤ 9) :
    ((oriaTempDeci b = -400 ∨ oriaTempDeci b = 600) →
      oriaExtractGate b = Except.ok
        { device_id := b.getD 6 0, channel := oriaChannel b
          temp_deci := oriaTempDeci b }) ∧
    ((oriaTempDeci b = -401 ∨ oriaTempDeci b = 601) →
      oriaExtractGate b =
        Except.error (Reject.temperatureOutOfRange (oriaTempDeci b))) := by
  have hbcd' : ¬(9 < oriaTempDecimalNibble b ∨ 9 < oriaTempTensNibble b
      ∨ 9 < oriaTempOnesNibble b) := by omega
  constructor
  · intro htemp
    unfold oriaExtractGate
    rw [if_neg (oriaChannel_cond_false b), if_neg hbcd',
      if_neg (by rcases htemp with h | h <;> rw [h] <;> decide)]
  · intro htemp
    unfold oriaExtractGate
    rw [if_neg (oriaChannel_cond_false b), if_neg hbcd',
      if_pos (by rcases htemp with h | h <;> rw [h] <;> decide)]

/-- C7 witness: a frame encoding exactly 60.0 is accepted by the gate and a
frame encoding exactly 60.1 is rejected with TemperatureOutOfRange. -/
theorem C7_temperature_boundaries_witness :
    oriaExtractGate
        [0xFF, 0xFF, 0xFF, 0xFA, 0x20, 0x00, 0x42, 0x00, 0x60, 0x00, 0x00,
         0x00, 0x00, 0x65] =
      Except.ok ⟨0x42, 1, 600⟩ ∧
    oriaExtractGate
        [0xFF, 0xFF, 0xFF, 0xFA, 0x20, 0x00, 0x42, 0x10, 0x60, 0x00, 0x00,
         0x00, 0x00, 0x65] =
      Except.error (Reject.temperatureOutOfRange 601) :=
  ⟨((C7_temperature_boundaries
      [0xFF, 0xFF, 0xFF, 0xFA, 0x20, 0x00, 0x42, 0x00, 0x60, 0x00, 0x00,
       0x00, 0x00, 0x65] (by decide)).1 (Or.inr (by decide))).trans
    (by decide),
   ((C7_temperature_boundaries
      [0xFF, 0xFF, 0xFF, 0xFA, 0x20, 0x00, 0x42, 0x10, 0x60, 0x00, 0x00,
       0x00, 0x00, 0x65] (by decide)).2 (Or.inr (by decide))).trans
    (by decide)⟩

/-- C2 counterexample, two independent failures of the claim.  First: with
the tracker table full (32 initialized entries for other pairs), a candidate
matching no initialized entry is rejected with TrackerFull rather than being
accepted unconditionally.  Second: a matching candidate whose exact
temperature delta is 12.0 degrees on the nose (stored 20.4, candidate 32.4,
deci delta 120 ≤ 120) is nevertheless rejected, because the C code compares
float32 values: fabsf(float32(32.4) - float32(20.4)) rounds to a value just
above 12.0f. -/
theorem C2_counterexample :
    ((∀ s ∈ fullTable, slotMatches 200 5 s = false) ∧
     trackerStep fullTable ⟨200, 5, 0⟩ = (TrackerRes.trackerFull, fullTable) ∧
     (trackerStep fullTable ⟨200, 5, 0⟩).1 ≠ TrackerRes.accepted) ∧
    (((324 : Int) - 204).natAbs ≤ 120 ∧
     (trackerStep [(⟨7, 2, 204, true⟩ : device_state_t)] ⟨7, 2, 324⟩).1 =
       TrackerRes.deltaTooLarge 204 324 ∧
     (trackerStep [(⟨7, 2, 204, true⟩ : device_state_t)] ⟨7, 2, 324⟩).1 ≠
       TrackerRes.accepted) := by decide

/-- C2 (amended): a candidate matching no initialized entry is accepted
unconditionally provided an uninitialized slot exists (otherwise the
capacity rule yields TrackerFull); a candidate matching an initialized
entry (the first matching slot) is accepted exactly when the
float32-computed absolute delta does not exceed 12.0f -- which agrees with
the exact deci-degree comparison whenever the deci delta is at most 119
(accept) or at least 121 (reject), the exact-12.0 boundary being the one
place the float32 rounding can tip the comparison; on acceptance the entry
is updated to the candidate's value, and on delta rejection the table is
unchanged, so a later candidate's delta is computed against the last
accepted value. -/
theorem C2_amended_debounce (table : List device_state_t) (r : Reading) :
    ((∀ s ∈ table, slotMatches r.device_id r.channel s = false) →
     (∃ s ∈ table, s.initialized = false) →
       (trackerStep table r).1 = TrackerRes.accepted) ∧
    (∀ i a, table[i]? = some a →
       slotMatches r.device_id r.channel a = true →
       (∀ j b, j < i → table[j]? = some b →
         slotMatches r.device_id r.channel b = false) →
       (((trackerStep table r).1 = TrackerRes.accepted ↔
           ¬deltaExceeded r.temp_deci a.last_temperature) ∧
        (r.temp_deci.natAbs ≤ 999 → a.last_temperature.natAbs ≤ 999 →
           (r.temp_deci - a.last_temperature).natAbs ≤ 119 →
           (trackerStep table r).2 =
             table.set i ⟨r.device_id, r.channel, r.temp_deci, true⟩) ∧
        (r.temp_deci.natAbs ≤ 999 → a.last_temperature.natAbs ≤ 999 →
           121 ≤ (r.temp_deci - a.last_temperature).natAbs →
           (trackerStep table r).2 = table) ∧
        (deltaExceeded r.temp_deci a.last_temperature →
           (trackerStep table r).2 = table) ∧
        (¬deltaExceeded r.temp_deci a.last_temperature →
           (trackerStep table r).2 =
             table.set i ⟨r.device_id, r.channel, r.temp_deci, true⟩))) := by
  constructor
  · intro hnm hfree
    obtain ⟨i, a, ha, hainit, hstep⟩ := trackerStep_new table r hnm hfree
    rw [hstep]
  · intro i a ha hm hmin
    have hstep := trackerStep_matched table r i a ha hm hmin
    by_cases hdelta : deltaExceeded r.temp_deci a.last_temperature
    · rw [if_pos hdelta] at hstep
      rw [hstep]
      refine ⟨⟨fun h1 => by simp at h1, fun h2 => absurd hdelta h2⟩,
        fun hc hs hsmall =>
          absurd hdelta (not_deltaExceeded_of_small _ _ hc hs hsmall),
        fun _ _ _ => rfl, fun _ => rfl, fun h2 => absurd hdelta h2⟩
    · rw [if_neg hdelta] at hstep
      rw [hstep]
      exact ⟨⟨fun _ => hdelta, fun _ => rfl⟩, fun _ _ _ => rfl,
        fun hc hs hlarge =>
          absurd (deltaExceeded_of_large _ _ hc hs hlarge) hdelta,
        fun hd => absurd hd hdelta, fun _ => rfl⟩

/-- C2 amended witness: a matching second reading with delta 5.0 degrees is
accepted and updates the stored temperature. -/
theorem C2_amended_debounce_witness :
    (trackerStep [(⟨7, 2, 100, true⟩ : device_state_t)] ⟨7, 2, 150⟩).1 =
      TrackerRes.accepted ∧
    (trackerStep [(⟨7, 2, 100, true⟩ : device_state_t)] ⟨7, 2, 150⟩).2 =
      [⟨7, 2, 150, true⟩] := by
  have h := (C2_amended_debounce [(⟨7, 2, 100, true⟩ : device_state_t)]
    ⟨7, 2, 150⟩).2 0 ⟨7, 2, 100, true⟩ (by decide) (by decide)
    (fun j b hj _ => absurd hj (Nat.not_lt_zero j))
  exact ⟨h.1.mpr (by decide),
    (h.2.1 (by decide) (by decide) (by decide)).trans (by decide)⟩

/-- C3: when the table holds 32 initialized entries for distinct pairs, a
candidate matching none of them is rejected with TrackerFull and the table
is unchanged (no eviction), while a candidate matching an existing entry is
still accepted or rejected purely by the delta rule the code applies (the
float32 comparison against 12.0f), which agrees with the exact deci-degree
comparison away from the exact-12.0 boundary. -/
theorem C3_capacity (table : List device_state_t) (r : Reading)
    (hlen : table.length = MAX_DEVICES)
    (hinit : ∀ s ∈ table, s.initialized = true)
    (hdist : trackerInvariant table) :
    ((∀ s ∈ table, ¬(s.device_id = r.device_id ∧ s.channel = r.channel)) →
       trackerStep table r = (TrackerRes.trackerFull, table)) ∧
    (∀ (i : Nat) (a : device_state_t), table[i]? = some a →
       a.device_id = r.device_id → a.channel = r.channel →
       (((trackerStep table r).1 = TrackerRes.accepted ↔
          ¬deltaExceeded r.temp_deci a.last_temperature) ∧
        (r.temp_deci.natAbs ≤ 999 → a.last_temperature.natAbs ≤ 999 →
          ((r.temp_deci - a.last_temperature).natAbs ≤ 119 →
            (trackerStep table r).1 = TrackerRes.accepted) ∧
          (121 ≤ (r.temp_deci - a.last_temperature).natAbs →
            (trackerStep table r).1 ≠ TrackerRes.accepted)))) := by
  constructor
  · intro hnm
    have hnone : device_index table r.device_id r.channel = none := by
      rw [device_index_eq_none_iff]
      refine ⟨fun s hs => ?_, hinit⟩
      cases hsm : slotMatches r.device_id r.channel s
      · rfl
      · obtain ⟨-, h1, h2⟩ := (slotMatches_iff _ _ _).mp hsm
        exact absurd ⟨h1, h2⟩ (hnm s hs)
    unfold trackerStep
    rw [hnone]
  · intro i a ha hid hch
    obtain ⟨hilt, haeq⟩ := List.getElem?_eq_some_iff.mp ha
    have hamem : a ∈ table := haeq ▸ List.getElem_mem hilt
    have hm : slotMatches r.device_id r.channel a = true :=
      (slotMatches_iff _ _ _).2 ⟨hinit a hamem, hid, hch⟩
    have hmin : ∀ j b, j < i → table[j]? = some b →
        slotMatches r.device_id r.channel b = false := by
      intro j b hj hb
      cases hsm : slotMatches r.device_id r.channel b
      · rfl
      · exfalso
        obtain ⟨hbinit, hbid, hbch⟩ := (slotMatches_iff _ _ _).mp hsm
        obtain ⟨hjlt, hbeq⟩ := List.getElem?_eq_some_iff.mp hb
        have hdist' := List.pairwise_iff_getElem.mp hdist
        exact hdist' j i hjlt hilt hj (by rw [hbeq]; exact hbinit)
          (by rw [haeq]; exact hinit a hamem)
          ⟨by rw [hbeq, haeq, hbid, hid], by rw [hbeq, haeq, hbch, hch]⟩
    have hstep := trackerStep_matched table r i a ha hm hmin
    by_cases hdelta : deltaExceeded r.temp_deci a.last_temperature
    · rw [if_pos hdelta] at hstep
      rw [hstep]
      refine ⟨⟨fun h1 => by simp at h1, fun h2 => absurd hdelta h2⟩, ?_⟩
      intro hc hs
      refine ⟨fun hsmall =>
        absurd hdelta (not_deltaExceeded_of_small _ _ hc hs hsmall),
        fun _ => ?_⟩
      simp
    · rw [if_neg hdelta] at hstep
      rw [hstep]
      refine ⟨⟨fun _ => hdelta, fun _ => rfl⟩, ?_⟩
      intro hc hs
      exact ⟨fun _ => rfl, fun hlarge =>
        absurd (deltaExceeded_of_large _ _ hc hs hlarge) hdelta⟩

/-- C3 witness: with the concrete full table, a brand-new pair yields
TrackerFull with the table unchanged, and an already-tracked pair with a
small delta is still accepted. -/
theorem C3_capacity_witness :
    trackerStep fullTable ⟨200, 5, 0⟩ = (TrackerRes.trackerFull, fullTable) ∧
    (trackerStep fullTable ⟨3, 1, 50⟩).1 = TrackerRes.accepted := by
  have hC := C3_capacity fullTable ⟨200, 5, 0⟩ (by decide) (by decide)
    (by decide)
  have hC2 := C3_capacity fullTable ⟨3, 1, 50⟩ (by decide) (by decide)
    (by decide)
  exact ⟨hC.1 (by decide),
    ((hC2.2 3 ⟨3, 1, 0, true⟩ (by decide) (by decide) (by decide)).2
        (by decide) (by decide)).1 (by decide)⟩

/-- C9: every sequence of decode calls preserves the tracker invariant (at
most one initialized entry per (device id, channel) pair); an accepted
candidate matching an initialized entry writes into that entry, never into
a fresh slot (the step either leaves the table unchanged or writes the
matched slot); and a slot holding an initialized entry for a different
pair -- in particular the same device id on another channel -- is never
touched, so entries are updated independently. -/
theorem C9_pair_uniqueness :
    (∀ (st : DecoderState) (bbs : List BitBuffer),
        trackerInvariant st.device_states →
        trackerInvariant (decodeSeq st bbs).device_states) ∧
    (∀ (table : List device_state_t) (r : Reading) (i : Nat)
        (a : device_state_t),
        table[i]? = some a → slotMatches r.device_id r.channel a = true →
        (∀ j b, j < i → table[j]? = some b →
          slotMatches r.device_id r.channel b = false) →
        (trackerStep table r).2 = table ∨
        (trackerStep table r).2 =
          table.set i ⟨r.device_id, r.channel, r.temp_deci, true⟩) ∧
    (∀ (table : List device_state_t) (r : Reading) (k : Nat)
        (a : device_state_t),
        table[k]? = some a → a.initialized = true →
        ¬(a.device_id = r.device_id ∧ a.channel = r.channel) →
        (trackerStep table r).2[k]? = table[k]?) := by
  refine ⟨fun st bbs h => decodeSeq_invariant st bbs h, ?_,
    fun table r k a => trackerStep_other_slot table r k a⟩
  intro table r i a ha hm hmin
  have hstep := trackerStep_matched table r i a ha hm hmin
  by_cases hdelta : deltaExceeded r.temp_deci a.last_temperature
  · rw [if_pos hdelta] at hstep
    left
    rw [hstep]
  · rw [if_neg hdelta] at hstep
    right
    rw [hstep]

/-- C9 witness: the invariant holds after decoding the valid example frame
from the initial state, and an entry for the same device id on another
channel is left untouched by a tracker step. -/
theorem C9_pair_uniqueness_witness :
    trackerInvariant (decodeSeq st0 [bbValid]).device_states ∧
    (trackerStep [(⟨9, 1, 0, true⟩ : device_state_t)] ⟨9, 2, 30⟩).2[0]? =
      [(⟨9, 1, 0, true⟩ : device_state_t)][0]? :=
  ⟨C9_pair_uniqueness.1 st0 [bbValid] (by decide),
   C9_pair_uniqueness.2.2 [⟨9, 1, 0, true⟩] ⟨9, 2, 30⟩ 0 ⟨9, 1, 0, true⟩
     (by decide) (by decide) (by decide)⟩

/-- C10: whenever the selected 227-bit row passes the warmup and raw-trailer
checks, the decode call leaves the caller's bit buffer fully inverted (every
used bit of every row complemented), regardless of how the frame fares
afterwards; when no 227-bit row exists or a raw check fails, the buffer is
left unmodified. -/
theorem C10_invert_in_place (st : DecoderState) (bb : BitBuffer) :
    (rawChecksPass bb = true →
      (oria_wa150km_decode st bb).2.2 = bitbuffer_invert bb) ∧
    (rawChecksPass bb = false →
      (oria_wa150km_decode st bb).2.2 = bb) ∧
    (∀ row : BitRow, ∀ k, k < row.bits → k < 8 * row.bytes.length →
      getBit (invertRow row) k = 1 - getBit row k) :=
  ⟨decode_bb_inverted st bb, decode_bb_unchanged st bb,
   fun row k hk hk2 => getBit_invertRow row k hk hk2⟩

/-- C10 witness: a frame rejected by the post-decode sanity check still
leaves the buffer inverted, and a frame rejected by the warmup check leaves
the buffer unmodified. -/
theorem C10_invert_in_place_witness :
    (oria_wa150km_decode st0 bbSanityBad).2.2 = bitbuffer_invert bbSanityBad ∧
    (oria_wa150km_decode st0 bbSanityBad).1 =
      DecodeOutcome.fail (Reject.sanityTrailerMismatch 0x60) ∧
    (oria_wa150km_decode st0 bbPreambleBad).2.2 = bbPreambleBad :=
  ⟨(C10_invert_in_place st0 bbSanityBad).1 (by decide), by decide,
   (C10_invert_in_place st0 bbPreambleBad).2.1 (by decide)⟩

/-- C4 counterexample: a row on which the Manchester primitive fails early
(12 decoded bits, far fewer than 112) is not propagated as the
NoMatchingRow/NoFrame result 0: the decoder returns DECODE_FAIL_SANITY via
the byte-13 sanity check instead. -/
theorem C4_counterexample :
    (manchesterDecodeBits (invertRow (bbManFail.getD 0 ⟨[], 0⟩)) 0
        ORIA_WA150KM_BITLEN).length < 112 ∧
    (oria_wa150km_decode st0 bbManFail).1 =
      DecodeOutcome.fail (Reject.sanityTrailerMismatch 0) ∧
    retCode (oria_wa150km_decode st0 bbManFail).1 = DECODE_FAIL_SANITY ∧
    retCode (oria_wa150km_decode st0 ([] : BitBuffer)).1 = 0 ∧
    DECODE_FAIL_SANITY ≠ 0 := by decide

/-- C4 (amended): the decoder ignores the Manchester primitive's failure;
when the decode stops early enough that byte 13 of the zero-initialized
output buffer is untouched (at most 104 decoded bits), the frame is
rejected by the post-decode byte-13 sanity check with DECODE_FAIL_SANITY
(the SanityTrailerMismatch diagnostic), not with the NoFrame result 0. -/
theorem C4_amended_manchester_failure (st : DecoderState) (bb : BitBuffer)
    (r : Nat) (hr : findRow bb = some r)
    (hw : warmupFail (bb.getD r ⟨[], 0⟩) = none)
    (ht : rowByte (bb.getD r ⟨[], 0⟩) ((bb.getD r ⟨[], 0⟩).bits / 8 - 1)
      = 0x69)
    (hm : (manchesterDecodeBits (invertRow (bb.getD r ⟨[], 0⟩)) 0
        ORIA_WA150KM_BITLEN).length ≤ 104) :
    (oria_wa150km_decode st bb).1 =
      DecodeOutcome.fail (Reject.sanityTrailerMismatch 0) ∧
    retCode (oria_wa150km_decode st bb).1 = DECODE_FAIL_SANITY ∧
    DECODE_FAIL_SANITY ≠ 0 := by
  have h1 := decode_manchester_short st bb r hr hw ht hm
  refine ⟨h1, ?_, by decide⟩
  rw [h1]
  rfl

/-- C4 amended witness: the concrete early-failure row is rejected with
DECODE_FAIL_SANITY. -/
theorem C4_amended_manchester_failure_witness :
    (oria_wa150km_decode st0 bbManFail).1 =
      DecodeOutcome.fail (Reject.sanityTrailerMismatch 0) ∧
    retCode (oria_wa150km_decode st0 bbManFail).1 = DECODE_FAIL_SANITY ∧
    DECODE_FAIL_SANITY ≠ 0 :=
  C4_amended_manchester_failure st0 bbManFail 0 (by decide) (by decide)
    (by decide) (by decide)

/-- C5 counterexample: the BadPreamble rejection is not distinct from the
NoFrame result in the decoder's return value: both return 0. -/
theorem C5_counterexample :
    (oria_wa150km_decode st0 bbPreambleBad).1 =
      DecodeOutcome.badWarmup 0 0x55 ∧
    (oria_wa150km_decode st0 ([] : BitBuffer)).1 = DecodeOutcome.noRow ∧
    retCode (oria_wa150km_decode st0 bbPreambleBad).1 =
      retCode (oria_wa150km_decode st0 ([] : BitBuffer)).1 := by decide

/-- C5 (amended): the three structural-corruption failures are
independently triggerable and carry pairwise-distinct diagnostic outcomes,
all distinct from the NoFrame outcome; but only SanityTrailerMismatch is
distinguished in the return value (DECODE_FAIL_SANITY), while BadPreamble
and BadTrailer return 0, the same value as NoFrame. -/
theorem C5_amended_distinguishability :
    (oria_wa150km_decode st0 bbPreambleBad).1 =
      DecodeOutcome.badWarmup 0 0x55 ∧
    (oria_wa150km_decode st0 bbTrailerBad).1 =
      DecodeOutcome.badTrailer 0x55 ∧
    (oria_wa150km_decode st0 bbSanityBad).1 =
      DecodeOutcome.fail (Reject.sanityTrailerMismatch 0x60) ∧
    (oria_wa150km_decode st0 ([] : BitBuffer)).1 = DecodeOutcome.noRow ∧
    (DecodeOutcome.badWarmup 0 0x55 ≠ DecodeOutcome.badTrailer 0x55 ∧
     DecodeOutcome.badWarmup 0 0x55 ≠
       DecodeOutcome.fail (Reject.sanityTrailerMismatch 0x60) ∧
     DecodeOutcome.badTrailer 0x55 ≠
       DecodeOutcome.fail (Reject.sanityTrailerMismatch 0x60) ∧
     DecodeOutcome.badWarmup 0 0x55 ≠ DecodeOutcome.noRow ∧
     DecodeOutcome.badTrailer 0x55 ≠ DecodeOutcome.noRow ∧
     DecodeOutcome.fail (Reject.sanityTrailerMismatch 0x60) ≠
       DecodeOutcome.noRow) ∧
    retCode (DecodeOutcome.badWarmup 0 0x55) = 0 ∧
    retCode (DecodeOutcome.badTrailer 0x55) = 0 ∧
    retCode (DecodeOutcome.fail (Reject.sanityTrailerMismatch 0x60)) =
      DECODE_FAIL_SANITY ∧
    DECODE_FAIL_SANITY ≠ 0 := by decide

end OriaWA150KM
